import Mathlib

/-!
Verification of the huge-page allocation microbenchmark (src/a.cc).

The program benchmarks three buffer variants:
* `mmap_vec sz` — explicit huge-page mapping via `mmap` with
  `MAP_HUGETLB | (sz << MAP_HUGE_SHIFT)`; failure is signalled by the
  `MAP_FAILED` sentinel return value.
* `hp_vec` — 2 MiB-aligned heap allocation via `posix_memalign`, followed by a
  best-effort `madvise(MADV_HUGEPAGE)` hint.
* `vec` — plain `malloc`.

Machine integers are modelled over `Nat`/`Int`:
* `std::size_t` values live in `Nat` with reductions `% 2 ^ 64` where the
  source arithmetic wraps;
* `int` values live in `Int`, constrained to `[-2^31, 2^31)` by the conversion
  `toInt32` that models `static_cast<int>` of a `std::size_t`.

System-call outcomes (`mmap`, `posix_memalign`, `malloc`, `madvise`) are
explicit oracle parameters of `init`, so every definition is a total function
of the pre-state and the recorded outcome.  The contents of a buffer are a
total function `Nat → Int`; accesses outside `[0, size)` never occur in the
modelled executions (the touch loop writes exactly the indices the sum loop
reads).
-/

namespace HugeAllocs

/-- `2 ^ 64`, the modulus of `std::size_t` arithmetic. -/
def SIZE_T_MOD : Nat := 2 ^ 64

/-- `2 ^ 32`, the modulus of 32-bit `int` representations. -/
def INT_MOD : Nat := 2 ^ 32

/-- `2 ^ 31`, the magnitude of `INT_MIN` for 32-bit `int`. -/
def INT_HALF : Nat := 2 ^ 31

/-- `static_cast<int>(i)` for a `std::size_t` value `i`: reduce modulo `2^32`
and reinterpret as two's-complement signed 32-bit. -/
def toInt32 (i : Nat) : Int :=
  let j := i % INT_MOD
  if j < INT_HALF then (j : Int) else (j : Int) - (INT_MOD : Int)

/-- `static_cast<std::size_t>(x)` for an `int` value `x`: conversion to the
unsigned 64-bit type reduces modulo `2^64` (sign extension for negatives). -/
def toSizeT (x : Int) : Nat := (x % (SIZE_T_MOD : Int)).toNat

/-- Abstract state of an `int *` data member: null, the `MAP_FAILED`
sentinel, or a usable mapping/allocation. -/
inductive Ptr where
  | nullptr
  | mapFailed
  | valid
deriving DecidableEq

/-- Outcome of the `mmap` system call: a usable mapping, or `MAP_FAILED`. -/
inductive MmapOutcome where
  | success
  | failed
deriving DecidableEq

/-- Outcome of `posix_memalign` / `malloc`: a usable allocation, or failure
(`posix_memalign` returns an error code and leaves the pointer unmodified;
`malloc` returns `NULL`). -/
inductive AllocOutcome where
  | success
  | failed
deriving DecidableEq

/-- Outcome of the advisory `madvise(MADV_HUGEPAGE)` call. -/
inductive MadviseOutcome where
  | honored
  | failed
deriving DecidableEq

/-- The shared parallel-sum loop body of `mmap_vec::sum`, `hp_vec::sum` and
`vec::sum`: `ans += static_cast<std::size_t>(data[i])` for `i < size`,
accumulating in `std::size_t` (i.e. modulo `2^64`; the OpenMP reduction is
over `+` on `std::size_t`, which is associative and commutative, so the
sequential left fold computes the same value as any parallel schedule). -/
def sumLoop (size : Nat) (mem : Nat → Int) : Nat :=
  (List.range size).foldl (fun ans i => (ans + toSizeT (mem i)) % SIZE_T_MOD) 0

/-- A single store through `operator[]`: `data[i] = x`. -/
def writeSlot (mem : Nat → Int) (i : Nat) (x : Int) : Nat → Int :=
  fun j => if j = i then x else mem j

/-- The touch loop of `run_bench`: `v[i] = static_cast<int>(i)` for every
`i < size` (each parallel worker owns disjoint indices, so the left fold
models any schedule). -/
def touchLoop (size : Nat) (mem : Nat → Int) : Nat → Int :=
  (List.range size).foldl (fun m i => writeSlot m i (toInt32 i)) mem

/-! ### `mmap_vec<sz>` — explicit huge pages via `mmap(MAP_HUGETLB)` -/

/-- State of `mmap_vec<sz>`: data members `size` and `data`, plus the contents
of the mapping (`mem`).  Default member initialisers: `size = 0`,
`data = nullptr`. -/
structure mmap_vec (sz : Nat) where
  size : Nat := 0
  data : Ptr := .nullptr
  mem : Nat → Int := fun _ => 0

/-- `mmap_vec() = default`. -/
def mmap_vec.new (sz : Nat) : mmap_vec sz := {}

/-- `mmap_vec::init`: records `size`, then stores the result of `mmap` into
`data` — a fresh zero-filled anonymous mapping on success, the `MAP_FAILED`
sentinel on failure.  `size` is recorded before the mapping attempt and is
not reset on failure. -/
def mmap_vec.init (v : mmap_vec sz) (size : Nat) (r : MmapOutcome) :
    mmap_vec sz :=
  match r with
  | .success => { v with size := size, data := .valid, mem := fun _ => 0 }
  | .failed => { v with size := size, data := .mapFailed }

/-- `mmap_vec::ok`: `data != MAP_FAILED`. -/
def mmap_vec.ok (v : mmap_vec sz) : Bool := v.data != Ptr.mapFailed

/-- `mmap_vec::sum`. -/
def mmap_vec.sum (v : mmap_vec sz) : Nat := sumLoop v.size v.mem

/-- The touch pass of `run_bench` applied to an `mmap_vec`. -/
def mmap_vec.touch (v : mmap_vec sz) : mmap_vec sz :=
  { v with mem := touchLoop v.size v.mem }

/-! ### `hp_vec` — transparent huge pages via `posix_memalign` + `madvise` -/

/-- State of `hp_vec`: data members `size` and `data`, plus allocation
contents. -/
structure hp_vec where
  size : Nat := 0
  data : Ptr := .nullptr
  mem : Nat → Int := fun _ => 0

/-- `hp_vec() = default`. -/
def hp_vec.new : hp_vec := {}

/-- `hp_vec::init`: records `size`, calls `posix_memalign(&data, 1 << 21,
size * sizeof(int))` (which stores a usable pointer on success and leaves
`data` unmodified on failure), then calls `madvise(data, ..., MADV_HUGEPAGE)`
whose return value is ignored — nothing of the state depends on `m`. -/
def hp_vec.init (v : hp_vec) (size : Nat) (r : AllocOutcome)
    (m : MadviseOutcome) : hp_vec :=
  match r, m with
  | .success, _ => { v with size := size, data := .valid }
  | .failed, _ => { v with size := size }

/-- `hp_vec::ok`: `data != nullptr`. -/
def hp_vec.ok (v : hp_vec) : Bool := v.data != Ptr.nullptr

/-- `hp_vec::sum`. -/
def hp_vec.sum (v : hp_vec) : Nat := sumLoop v.size v.mem

/-- The touch pass of `run_bench` applied to an `hp_vec`. -/
def hp_vec.touch (v : hp_vec) : hp_vec :=
  { v with mem := touchLoop v.size v.mem }

/-! ### `vec` — plain heap allocation via `malloc` -/

/-- State of `vec`: data members `size` and `data`, plus allocation
contents. -/
structure vec where
  size : Nat := 0
  data : Ptr := .nullptr
  mem : Nat → Int := fun _ => 0

/-- `vec() = default`. -/
def vec.new : vec := {}

/-- `vec::init`: records `size`, then `data = malloc(sizeof(int) * size)` —
a usable pointer on success, `NULL` on failure. -/
def vec.init (v : vec) (size : Nat) (r : AllocOutcome) : vec :=
  match r with
  | .success => { v with size := size, data := .valid }
  | .failed => { v with size := size, data := .nullptr }

/-- `vec::ok`: `data != nullptr`. -/
def vec.ok (v : vec) : Bool := v.data != Ptr.nullptr

/-- `vec::sum`. -/
def vec.sum (v : vec) : Nat := sumLoop v.size v.mem

/-- The touch pass of `run_bench` applied to a `vec`. -/
def vec.touch (v : vec) : vec :=
  { v with mem := touchLoop v.size v.mem }

/-- Spec-side formula (from the claim's words, not from the source): the value
slot `i` contributes to the sum after the touch pass — `i` reduced modulo
`2^32`, reinterpreted as signed 32-bit, then sign-extended to unsigned 64-bit
(`2^64 - 2^32 + j` for a high half `j`, i.e. for `j` with bit 31 set). -/
def signExtSpec (i : Nat) : Nat :=
  if i % INT_MOD < INT_HALF then i % INT_MOD else SIZE_T_MOD - INT_MOD + i % INT_MOD

/-! ### Timer utility `ms` -/

/-- Nanoseconds per millisecond: the divisor of
`duration_cast<std::chrono::milliseconds>` on the nanosecond-resolution
`high_resolution_clock` duration. -/
def NS_PER_MS : Nat := 1000000

/-- `ms(f)`: reads the clock, runs `f()` once, reads the clock again, and
returns the elapsed duration cast to whole milliseconds (integer division
truncates the sub-millisecond remainder).  The two clock readings are oracle
parameters `tStart` and `tEnd` (nanosecond counts); the unit of work is a
state transformer that either finishes in a new state or escapes with an
exception, which `ms` itself does not catch. -/
def ms {σ ε : Type} (f : σ → Except ε σ) (tStart tEnd : Nat) (s : σ) :
    Except ε (σ × Nat) :=
  match f s with
  | .error e => .error e
  | .ok s1 => .ok (s1, (tEnd - tStart) / NS_PER_MS)

/-! ### Benchmark driver `run_bench` and orchestrator `main` -/

/-- The four timed phases of one `run_bench` call. -/
inductive Phase where
  | alloc
  | touch
  | sum
  | free
deriving DecidableEq

/-- One line of standard output, before rendering to text. -/
inductive Line where
  | failNotice (name : String)
  | sumLine (name : String) (value : Nat)
  | timing (name : String) (phase : Phase) (t : Nat)
  | total (name : String) (t : Nat)
  | blank
deriving DecidableEq

/-- The label `run_bench` prints for each phase. -/
def Phase.label : Phase → String
  | .alloc => "alloc"
  | .touch => "touch"
  | .sum => "sum"
  | .free => "free"

/-- The exact text of an output line. -/
def Line.render : Line → String
  | .failNotice name => name ++ " failed to allocate memory"
  | .sumLine name value => name ++ " sum: " ++ toString value
  | .timing name phase t => name ++ " time " ++ phase.label ++ ": " ++ toString t ++ " ms"
  | .total name t => "time " ++ name ++ ": " ++ toString t ++ " ms"
  | .blank => ""

/-- Is this a per-phase timing line (`<name> time <phase>: <t> ms`)? -/
def Line.isTiming : Line → Bool
  | .timing _ _ _ => true
  | _ => false

/-- Is this a total-time summary line (`time <name>: <t> ms`)? -/
def Line.isTotal : Line → Bool
  | .total _ _ => true
  | _ => false

/-- Which phases a `run_bench` call executed on the buffer. -/
structure PhasesRun where
  alloc : Bool
  touch : Bool
  sum : Bool
  free : Bool
deriving DecidableEq

/-- The data `run_bench<T>(name)` depends on beyond the variant type: whether
`v.ok()` held after `init`, the value `v.sum()` returned, and the four
durations measured by `ms`. -/
structure BenchArgs where
  okAfterInit : Bool
  sumVal : Nat
  t_alloc : Nat
  t_touch : Nat
  t_sum : Nat
  t_free : Nat

/-- `run_bench<T>(name)`: allocates (timed), and if `!v.ok()` prints the
failure notice and a blank line and returns; otherwise touches (timed), sums
(timed, printing the sum inside the timed phase), frees (timed), then prints
the four phase timings and a blank line.  Returns the printed lines and
which phases ran. -/
def run_bench (name : String) (okAfterInit : Bool) (sumVal : Nat)
    (t_alloc t_touch t_sum t_free : Nat) : List Line × PhasesRun :=
  if okAfterInit = false then
    ([.failNotice name, .blank], ⟨true, false, false, false⟩)
  else
    ([.sumLine name sumVal,
      .timing name .alloc t_alloc, .timing name .touch t_touch,
      .timing name .sum t_sum, .timing name .free t_free, .blank],
     ⟨true, true, true, true⟩)

/-- `run_bench` applied to a `BenchArgs` record. -/
def run_bench_args (name : String) (a : BenchArgs) : List Line × PhasesRun :=
  run_bench name a.okAfterInit a.sumVal a.t_alloc a.t_touch a.t_sum a.t_free

/-- `main`: runs `run_bench` once for each of the four variants, in the fixed
order `thp` (`hp_vec`), `2mb_hp` (`mmap_vec<21>`), `1gb_hp` (`mmap_vec<30>`),
`malloc` (`vec`), each wrapped in `ms`; then prints the four total-time
summary lines and returns 0.  The `t_*` parameters are the totals measured by
the four outer `ms` calls. -/
def main_program (a_thp a_2mb a_1gb a_malloc : BenchArgs)
    (t_thp t_2mb t_1gb t_malloc : Nat) : List Line × Nat :=
  ((run_bench_args "thp" a_thp).1 ++ (run_bench_args "2mb_hp" a_2mb).1 ++
    (run_bench_args "1gb_hp" a_1gb).1 ++ (run_bench_args "malloc" a_malloc).1 ++
    [.total "thp" t_thp, .total "2mb_hp" t_2mb,
     .total "1gb_hp" t_1gb, .total "malloc" t_malloc], 0)

end HugeAllocs

namespace HugeAllocs

/-! ### Arithmetic and loop lemmas -/

/-- Widening a touched value: `static_cast<std::size_t>(static_cast<int>(i))`
equals the sign-extension formula `signExtSpec i`. -/
theorem toSizeT_toInt32 (i : Nat) : toSizeT (toInt32 i) = signExtSpec i := by
  simp only [toSizeT, toInt32, signExtSpec, SIZE_T_MOD, INT_MOD, INT_HALF]
  split <;> omega

/-- The step-wise wrapping sum loop computes the wrapped total. -/
theorem sumLoop_eq_sum_mod (size : Nat) (mem : Nat → Int) :
    sumLoop size mem = (∑ i in Finset.range size, toSizeT (mem i)) % SIZE_T_MOD := by
  induction size with
  | zero => simp [sumLoop]
  | succ n ih =>
    unfold sumLoop at ih ⊢
    rw [List.range_succ, List.foldl_append, ih, Finset.sum_range_succ]
    simp [Nat.mod_add_mod]

/-- After the touch loop, slot `i` holds `static_cast<int>(i)` for `i < size`
and its previous contents otherwise. -/
theorem touchLoop_get (size : Nat) (mem : Nat → Int) (i : Nat) :
    touchLoop size mem i = if i < size then toInt32 i else mem i := by
  induction size with
  | zero => simp [touchLoop]
  | succ n ih =>
    unfold touchLoop at ih ⊢
    rw [List.range_succ, List.foldl_append]
    simp only [List.foldl_cons, List.foldl_nil, writeSlot]
    by_cases h : i = n
    · subst h; simp
    · rw [if_neg h, ih]
      by_cases h2 : i < n
      · rw [if_pos h2, if_pos (by omega)]
      · rw [if_neg h2, if_neg (by omega)]

/-- The sum of a fully touched buffer is the wrapped total of the
sign-extension formula, independent of the memory's prior contents. -/
theorem sum_touched (n : Nat) (mem0 : Nat → Int) :
    sumLoop n (touchLoop n mem0) =
      (∑ i in Finset.range n, signExtSpec i) % SIZE_T_MOD := by
  rw [sumLoop_eq_sum_mod]
  congr 1
  refine Finset.sum_congr rfl fun i hi => ?_
  rw [touchLoop_get, if_pos (Finset.mem_range.mp hi), toSizeT_toInt32]

/-- Below `2^31` the sign-extension formula is the identity: the cast to
`int` does not wrap. -/
theorem signExtSpec_of_lt {i : Nat} (h : i < INT_HALF) : signExtSpec i = i := by
  unfold signExtSpec INT_MOD INT_HALF at *
  split <;> omega

/-- Gauss sum of the touched values for `n ≤ 2^31`. -/
theorem sum_signExtSpec_small (n : Nat) (h : n ≤ INT_HALF) :
    ∑ i in Finset.range n, signExtSpec i = n * (n - 1) / 2 := by
  rw [Finset.sum_congr rfl fun i hi =>
    signExtSpec_of_lt (lt_of_lt_of_le (Finset.mem_range.mp hi) h)]
  exact Finset.sum_range_id n

/-- For `n ≤ 2^31` the Gauss sum fits in 64 bits (it is below `2^61`). -/
theorem gauss_lt_mod {n : Nat} (h : n ≤ INT_HALF) :
    n * (n - 1) / 2 < SIZE_T_MOD := by
  have h1 : n * (n - 1) ≤ INT_HALF * INT_HALF :=
    Nat.mul_le_mul h (le_trans (Nat.sub_le n 1) h)
  unfold INT_HALF SIZE_T_MOD at *
  omega

/-- Touch then sum gives exactly the Gauss sum whenever `n ≤ 2^31`. -/
theorem sumLoop_touchLoop_gauss {n : Nat} (h : n ≤ INT_HALF) (mem0 : Nat → Int) :
    sumLoop n (touchLoop n mem0) = n * (n - 1) / 2 := by
  rw [sum_touched, sum_signExtSpec_small n h, Nat.mod_eq_of_lt (gauss_lt_mod h)]

/-! ### Claim theorems: init / ok state machine -/

/-- C3: for every buffer variant, `ok()` immediately after a failed `init()`
returns `false` and `ok()` immediately after a successful `init()` returns
`true` (for `hp_vec` the object is the default-constructed one `init` is
always called on, since `posix_memalign` leaves the pointer unmodified on
failure); for `mmap_vec` the failure test is literally a comparison of the
stored `data` member against the `MAP_FAILED` sentinel. -/
theorem ok_reflects_init_outcome :
    (∀ (sz n : Nat) (v : mmap_vec sz),
      (v.init n .failed).ok = false ∧ (v.init n .success).ok = true) ∧
    (∀ (n : Nat) (m m' : MadviseOutcome),
      (hp_vec.new.init n .failed m).ok = false ∧
        (hp_vec.new.init n .success m').ok = true) ∧
    (∀ (n : Nat) (v : vec),
      (v.init n .failed).ok = false ∧ (v.init n .success).ok = true) ∧
    (∀ (sz : Nat) (v : mmap_vec sz),
      v.ok = (v.data != Ptr.mapFailed)) := by
  refine ⟨fun sz n v => ⟨rfl, rfl⟩, fun n m m' => ⟨rfl, rfl⟩,
    fun n v => ⟨rfl, rfl⟩, fun sz v => rfl⟩

/-- C4: for `hp_vec`, `init` reports success (`ok() = true`) whenever the
aligned allocation succeeds, for every outcome of the `madvise` hint. -/
theorem hp_vec_ok_ignores_madvise :
    ∀ (v : hp_vec) (n : Nat) (m : MadviseOutcome),
      (v.init n .success m).ok = true := by
  intro v n m
  rfl

/-- C8: when `mmap_vec::init(n)` fails, the `data` member holds the
`MAP_FAILED` sentinel while the `size` member still holds the requested `n`
(recorded before the mapping attempt, never reset). -/
theorem mmap_vec_failed_init_state :
    ∀ (sz n : Nat) (v : mmap_vec sz),
      (v.init n .failed).data = Ptr.mapFailed ∧ (v.init n .failed).size = n := by
  intro sz n v
  exact ⟨rfl, rfl⟩

/-- C10: on a default-constructed buffer, before any `init()`, `ok()` returns
`true` for `mmap_vec` (its null-initialised `data` differs from the
`MAP_FAILED` sentinel it compares against) but `false` for `hp_vec` and
`vec` (which compare against null). -/
theorem ok_default_constructed :
    (∀ sz : Nat, (mmap_vec.new sz).ok = true) ∧
      hp_vec.new.ok = false ∧ vec.new.ok = false := by
  exact ⟨fun sz => rfl, rfl, rfl⟩

/-! ### Claim theorems: touch-then-sum arithmetic -/

/-- C1 (amended): for every buffer variant and every `n ≤ 2^31` (not `2^34`:
for larger `n` the cast `static_cast<int>(i)` wraps and the claim fails, see
the counterexample), after a successful `init(n)` and a touch pass writing
value `i` into slot `i` for every `i < n`, `sum()` returns exactly
`n * (n - 1) / 2`, with no 64-bit overflow. -/
theorem sum_after_touch_gauss (n : Nat) (h : n ≤ INT_HALF) :
    (∀ (sz : Nat) (v : mmap_vec sz),
      ((v.init n .success).touch).sum = n * (n - 1) / 2) ∧
    (∀ (v : hp_vec) (m : MadviseOutcome),
      ((v.init n .success m).touch).sum = n * (n - 1) / 2) ∧
    (∀ v : vec, ((v.init n .success).touch).sum = n * (n - 1) / 2) := by
  refine ⟨fun sz v => ?_, fun v m => ?_, fun v => ?_⟩ <;>
    exact sumLoop_touchLoop_gauss h _

/-- Witness for C1 (amended) at `n = 10` on the heap variant. -/
theorem sum_after_touch_gauss_witness :
    10 ≤ INT_HALF ∧ ((vec.new.init 10 .success).touch).sum = 10 * (10 - 1) / 2 :=
  ⟨by decide, (sum_after_touch_gauss 10 (by decide)).2.2 vec.new⟩

set_option maxRecDepth 4000 in
/-- C1 is false as stated: at `n = 2^31 + 1` (well below 16 Gi), after a
successful `init(n)` and the touch pass, `sum()` of the heap variant is not
`n * (n - 1) / 2` — slot `2^31` stores `static_cast<int>(2^31) = -2^31`,
which sign-extends to `2^64 - 2^31` instead of `2^31`. -/
theorem sum_after_touch_gauss_fails_past_int_max :
    ¬ (((vec.new.init (INT_HALF + 1) .success).touch).sum =
        (INT_HALF + 1) * ((INT_HALF + 1) - 1) / 2) := by
  simp only [vec.new, vec.init, vec.touch, vec.sum]
  rw [sum_touched, Finset.sum_range_succ, sum_signExtSpec_small INT_HALF le_rfl]
  norm_num [signExtSpec, INT_MOD, INT_HALF, SIZE_T_MOD]

set_option maxRecDepth 4000 in
/-- C2: for the heap variant `vec`, `init(1024)` with a successful `malloc`
reports ok, and after the touch pass writing `0..1023`, `sum()` returns
exactly `523776`. -/
theorem vec_sum_1024_eq_523776 :
    (vec.new.init 1024 .success).ok = true ∧
      ((vec.new.init 1024 .success).touch).sum = 523776 := by
  refine ⟨rfl, ?_⟩
  simp only [vec.new, vec.init, vec.touch, vec.sum]
  rw [sumLoop_touchLoop_gauss (by norm_num [INT_HALF])]

/-- C9: the touch pass stores `static_cast<int>(i)` (i.e. `toInt32 i`, the
value of `i` reduced modulo `2^32` reinterpreted as signed 32-bit) into slot
`i`; `sum()` widens each element back by sign extension and accumulates
modulo `2^64`, so for every `n` the post-touch `sum()` of every variant
equals the mod-`2^64` sum over `i < n` of the sign-extended value of
`i mod 2^32`. -/
theorem sum_after_touch_mod_formula (n : Nat) :
    (∀ i : Nat, toSizeT (toInt32 i) = signExtSpec i) ∧
    (∀ (sz : Nat) (v : mmap_vec sz) (i : Nat),
      ((v.init n .success).touch).mem i = if i < n then toInt32 i else 0) ∧
    (∀ (v : hp_vec) (m : MadviseOutcome) (i : Nat),
      ((v.init n .success m).touch).mem i = if i < n then toInt32 i else v.mem i) ∧
    (∀ (v : vec) (i : Nat),
      ((v.init n .success).touch).mem i = if i < n then toInt32 i else v.mem i) ∧
    (∀ (sz : Nat) (v : mmap_vec sz),
      ((v.init n .success).touch).sum =
        (∑ i in Finset.range n, signExtSpec i) % SIZE_T_MOD) ∧
    (∀ (v : hp_vec) (m : MadviseOutcome),
      ((v.init n .success m).touch).sum =
        (∑ i in Finset.range n, signExtSpec i) % SIZE_T_MOD) ∧
    (∀ v : vec,
      ((v.init n .success).touch).sum =
        (∑ i in Finset.range n, signExtSpec i) % SIZE_T_MOD) :=
  ⟨toSizeT_toInt32,
   fun _ _ i => touchLoop_get n _ i,
   fun _ _ i => touchLoop_get n _ i,
   fun _ i => touchLoop_get n _ i,
   fun _ _ => sum_touched n _,
   fun _ _ => sum_touched n _,
   fun _ => sum_touched n _⟩

/-! ### Claim theorems: driver, orchestrator, timer -/

/-- A `run_bench` call never emits a total-time summary line (those come from
`main` alone). -/
theorem run_bench_no_total (name : String) (ok : Bool) (sumVal ta tt ts tf : Nat) :
    ((run_bench name ok sumVal ta tt ts tf).1.filter Line.isTotal) = [] := by
  cases ok <;> rfl

/-- C5: when `init` failed (`ok()` returned `false`), `run_bench` prints
exactly one failure-notice line (followed only by the variant-separating
blank line, rendered as `<name> failed to allocate memory` then an empty
line), does not execute the touch, sum or free phases, and prints no
per-phase timing line. -/
theorem run_bench_failure_trace (name : String) (sumVal ta tt ts tf : Nat) :
    (run_bench name false sumVal ta tt ts tf).1 = [.failNotice name, .blank] ∧
    (run_bench name false sumVal ta tt ts tf).1.count (.failNotice name) = 1 ∧
    ((run_bench name false sumVal ta tt ts tf).1.map Line.render) =
      [name ++ " failed to allocate memory", ""] ∧
    ((run_bench name false sumVal ta tt ts tf).1.filter Line.isTiming) = [] ∧
    (run_bench name false sumVal ta tt ts tf).2 = ⟨true, false, false, false⟩ := by
  refine ⟨rfl, ?_, rfl, rfl, rfl⟩
  simp [run_bench, List.count_cons]

/-- C6: `main` runs the driver exactly once per variant in the fixed order
`thp`, `2mb_hp`, `1gb_hp`, `malloc`; its output is the four driver traces in
that order followed by exactly one total-time summary line per variant, and
it returns exit status 0 — all regardless of which variants failed to
allocate (the `okAfterInit` fields are arbitrary). -/
theorem main_fixed_order_and_status (a_thp a_2mb a_1gb a_malloc : BenchArgs)
    (t_thp t_2mb t_1gb t_malloc : Nat) :
    (main_program a_thp a_2mb a_1gb a_malloc t_thp t_2mb t_1gb t_malloc).2 = 0 ∧
    (main_program a_thp a_2mb a_1gb a_malloc t_thp t_2mb t_1gb t_malloc).1 =
      (run_bench_args "thp" a_thp).1 ++ (run_bench_args "2mb_hp" a_2mb).1 ++
        (run_bench_args "1gb_hp" a_1gb).1 ++ (run_bench_args "malloc" a_malloc).1 ++
        [.total "thp" t_thp, .total "2mb_hp" t_2mb,
         .total "1gb_hp" t_1gb, .total "malloc" t_malloc] ∧
    ((main_program a_thp a_2mb a_1gb a_malloc t_thp t_2mb t_1gb t_malloc).1.filter
        Line.isTotal) =
      [.total "thp" t_thp, .total "2mb_hp" t_2mb,
       .total "1gb_hp" t_1gb, .total "malloc" t_malloc] := by
  refine ⟨rfl, rfl, ?_⟩
  simp only [main_program, run_bench_args, List.filter_append,
    run_bench_no_total, List.nil_append]
  rfl

/-- C7: `ms(f)` executes `f` exactly once (the resulting state is exactly one
application of `f`), returns the elapsed clock difference truncated to whole
milliseconds, and propagates a failure escaping `f` unchanged. -/
theorem ms_runs_once_truncates {σ ε : Type} (f : σ → Except ε σ)
    (tStart tEnd : Nat) (s : σ) :
    (∀ s1, f s = .ok s1 →
      ms f tStart tEnd s = .ok (s1, (tEnd - tStart) / NS_PER_MS)) ∧
    (∀ e, f s = .error e → ms f tStart tEnd s = .error e) := by
  constructor
  · intro s1 h
    unfold ms
    rw [h]
  · intro e h
    unfold ms
    rw [h]

/-- Witness for C7: a work item run between clock readings 1000000 ns and
3500000 ns reports 2 ms (2.5 ms truncated), and an error outcome is passed
through. -/
theorem ms_runs_once_truncates_witness :
    ms (fun n : Nat => Except.ok (ε := Unit) (n + 1)) 1000000 3500000 0 =
        Except.ok (1, 2) ∧
      ms (fun _ : Nat => Except.error ()) 1000000 3500000 0 =
        (Except.error () : Except Unit (Nat × Nat)) :=
  ⟨(ms_runs_once_truncates (fun n : Nat => Except.ok (n + 1)) 1000000 3500000 0).1
      1 rfl,
    (ms_runs_once_truncates (fun _ : Nat => Except.error ()) 1000000 3500000 0).2
      () rfl⟩

end HugeAllocs
